import Mathlib

set_option maxRecDepth 8192

/-!
Verification of the `perfaware` 8086 MOV disassembler (src/src/main.rs and
src/src/mov.rs) against its natural-language specification.

Modelling conventions:
* A Rust byte stream (an iterator over `u8`) is a `List Nat`; theorems carry
  `< 256` bounds where byte-width matters.
* A Rust function returning `Option<T>` while pulling from the stream becomes
  `List Nat → RResult (T × List Nat)`: `.ok` for `Some` together with the
  unconsumed remainder, `.exhausted` for `None` (the stream ran out), and
  `.panicked` for a panic (`unimplemented!()`, `unreachable!()`, or an
  out-of-range slice index).
* Machine integers are `Nat`/`Int` with explicit wrap-around arithmetic where
  overflow matters (`i16` negation wraps modulo 2^16, the semantics of a
  release build; overflow-checked builds abort at the same inputs).
-/

/-- Outcome of running a piece of the Rust decoder: a value, a `None` caused
by stream exhaustion, or a panic. -/
inductive RResult (α : Type) where
  | ok : α → RResult α
  | exhausted : RResult α
  | panicked : RResult α
deriving DecidableEq

def RResult.bind {α β : Type} : RResult α → (α → RResult β) → RResult β
  | .ok a, f => f a
  | .exhausted, _ => .exhausted
  | .panicked, _ => .panicked

instance : Monad RResult where
  pure := RResult.ok
  bind := RResult.bind

/-- `iterator.next()?`: yield the head byte and the remaining stream, or
propagate `None` when the stream is empty. -/
def nextByte (s : List Nat) : RResult (Nat × List Nat) :=
  match s with
  | [] => .exhausted
  | b :: rest => .ok (b, rest)

/-- A Rust slice index `table[i]`: panics when out of range. -/
def liftOpt {α : Type} : Option α → RResult α
  | some a => .ok a
  | none => .panicked

@[simp] theorem RResult.bind_ok {α β : Type} (a : α) (f : α → RResult β) :
    RResult.bind (.ok a) f = f a := rfl

@[simp] theorem RResult.bind_exhausted {α β : Type} (f : α → RResult β) :
    RResult.bind .exhausted f = .exhausted := rfl

@[simp] theorem RResult.bind_panicked {α β : Type} (f : α → RResult β) :
    RResult.bind .panicked f = .panicked := rfl

@[simp] theorem RResult.pure_eq_ok {α : Type} (a : α) :
    (pure a : RResult α) = .ok a := rfl

@[simp] theorem RResult.monad_bind_eq_bind {α β : Type} (x : RResult α) (f : α → RResult β) :
    x >>= f = RResult.bind x f := rfl

@[simp] theorem nextByte_nil : nextByte [] = .exhausted := rfl

@[simp] theorem nextByte_cons (b : Nat) (rest : List Nat) :
    nextByte (b :: rest) = .ok (b, rest) := rfl

@[simp] theorem liftOpt_some {α : Type} (a : α) : liftOpt (some a) = .ok a := rfl

@[simp] theorem liftOpt_none {α : Type} : liftOpt (none : Option α) = .panicked := rfl

/-- `u16::from_le_bytes([lo, hi])` for in-range bytes. -/
def u16_from_le (lo hi : Nat) : Nat := lo + 256 * hi

/-- `byte as i8 as i16` for an in-range byte: sign-extend an 8-bit value. -/
def i8_as_i16 (b : Nat) : Int := if b < 128 then (b : Int) else (b : Int) - 256

/-- `i16::from_le_bytes([lo, hi])` for in-range bytes: the signed 16-bit value. -/
def i16_from_le (lo hi : Nat) : Int :=
  if lo + 256 * hi < 32768 then ((lo + 256 * hi : Nat) : Int)
  else ((lo + 256 * hi : Nat) : Int) - 65536

/-- Two's-complement `i16` negation: `-d` wrapped into `[-32768, 32768)`.
Equal to `-d` everywhere except `d = -32768`, where it wraps back to
`-32768` (a release build; an overflow-checked build panics there). -/
def i16_wrap_neg (d : Int) : Int := (-d + 32768) % 65536 - 32768

namespace Main

inductive Operation where
  | mov
deriving DecidableEq

inductive Direction where
  | FromRegister
  | ToRegister
deriving DecidableEq

inductive Size where
  | Byte
  | Word
deriving DecidableEq

inductive Mode where
  | MemoryNoDisplacement
  | Memory8Bit
  | Memory16Bit
  | Register
deriving DecidableEq

/-- `fn lookup_masked` from src/src/main.rs: index a fixed table by a masked,
shifted bit-field of `byte`.  The `Option` is `none` exactly on the (Rust
panicking) out-of-range branch. -/
def lookup_masked {α : Type} (table : List α) (byte mask shift : Nat) : Option α :=
  table.get? ((byte &&& mask) >>> shift)

def DIRECTIONS : List Direction := [.FromRegister, .ToRegister]

def SIZES : List Size := [.Byte, .Word]

def MODES : List Mode :=
  [.MemoryNoDisplacement, .Memory8Bit, .Memory16Bit, .Register]

def BYTE_REGISTERS : List String := ["al", "cl", "dl", "bl", "ah", "ch", "dh", "bh"]

def WORD_REGISTERS : List String := ["ax", "cx", "dx", "bx", "sp", "bp", "si", "di"]

def register_table (operation_size : Size) : List String :=
  match operation_size with
  | .Byte => BYTE_REGISTERS
  | .Word => WORD_REGISTERS

structure MovOperation where
  direction : Direction
  mode : Mode
  register : String
  register_or_memory : String

/-- `MovOperation::new`: extract direction/size/mode and the two register
names from the first two instruction bytes.  Any (provably unreachable)
out-of-range table lookup panics. -/
def MovOperation.new (first_byte second_byte : Nat) : RResult MovOperation := do
  let direction ← liftOpt (lookup_masked DIRECTIONS first_byte 0b00000010 1)
  let size ← liftOpt (lookup_masked SIZES first_byte 0b00000001 0)
  let mode ← liftOpt (lookup_masked MODES second_byte 0b11000000 6)
  let register ← liftOpt (lookup_masked (register_table size) second_byte 0b00111000 3)
  let register_or_memory ← liftOpt (lookup_masked (register_table size) second_byte 0b00000111 0)
  pure { direction := direction, mode := mode, register := register,
         register_or_memory := register_or_memory }

/-- `impl Display for MovOperation`: the direction bit picks the operand
order. -/
def MovOperation.format (m : MovOperation) : String :=
  match m.direction with
  | .FromRegister => "mov " ++ m.register_or_memory ++ ", " ++ m.register
  | .ToRegister => "mov " ++ m.register ++ ", " ++ m.register_or_memory

def OPCODE_MASK : Nat := 0b11111100

/-- `fn decode_operation`: read the first byte; a masked match against the
MOV pattern, any other value hits `unimplemented!()` and panics. -/
def decode_operation (s : List Nat) : RResult ((Operation × Nat) × List Nat) := do
  let (first_byte, s) ← nextByte s
  if first_byte &&& OPCODE_MASK = 0b10001000 then
    pure ((Operation.mov, first_byte), s)
  else
    RResult.panicked

/-- `fn decode_mov`: read the second byte and format the decoded operation. -/
def decode_mov (first_byte : Nat) (s : List Nat) : RResult (String × List Nat) := do
  let (second_byte, s) ← nextByte s
  let mov ← MovOperation.new first_byte second_byte
  pure (mov.format, s)

/-- `fn dissassemble_instruction` (spelling kept from the source). -/
def dissassemble_instruction (s : List Nat) : RResult (String × List Nat) := do
  let ((operation, first_byte), s) ← decode_operation s
  match operation with
  | Operation.mov => decode_mov first_byte s

def HEADER : String := "bits 16"

/-- The `while let` loop of `fn disassemble`, with fuel.  `fuel =
machine_code.length + 1` always suffices since every successful instruction
decode consumes at least one byte. -/
def disassembleAux (fuel : Nat) (s : List Nat) (acc : String) : RResult String :=
  match fuel with
  | 0 => .ok acc
  | fuel + 1 =>
    match dissassemble_instruction s with
    | .ok (line, s) => disassembleAux fuel s (acc ++ line ++ "\n")
    | .exhausted => .ok acc
    | .panicked => .panicked

/-- `fn disassemble`: header, blank line, then one line per decoded
instruction; a panic anywhere aborts the whole run. -/
def disassemble (machine_code : List Nat) : RResult String :=
  disassembleAux (machine_code.length + 1) machine_code (HEADER ++ "\n\n")

end Main

namespace Mov

inductive Direction where
  | FromRegister
  | ToRegister
deriving DecidableEq

inductive Size where
  | Byte
  | Word
deriving DecidableEq

inductive Mode where
  | MemoryNoDisplacement
  | Memory8Bit
  | Memory16Bit
  | Register
deriving DecidableEq

/-- `impl Size { fn as_immediate_str }` from src/src/mov.rs. -/
def Size.as_immediate_str (s : Size) : String :=
  match s with
  | .Byte => "byte"
  | .Word => "word"

/-- `fn lookup_masked` from src/src/mov.rs (identical to the one in
main.rs): index a fixed table by a masked, shifted bit-field of `byte`;
`none` is the (Rust panicking) out-of-range branch. -/
def lookup_masked {α : Type} (table : List α) (byte mask shift : Nat) : Option α :=
  table.get? ((byte &&& mask) >>> shift)

def DIRECTIONS : List Direction := [.FromRegister, .ToRegister]

def SIZES : List Size := [.Byte, .Word]

def MODES : List Mode :=
  [.MemoryNoDisplacement, .Memory8Bit, .Memory16Bit, .Register]

def BYTE_REGISTERS : List String := ["al", "cl", "dl", "bl", "ah", "ch", "dh", "bh"]

def WORD_REGISTERS : List String := ["ax", "cx", "dx", "bx", "sp", "bp", "si", "di"]

def MEMORY_STRINGS : List String :=
  ["[bx + si]", "[bx + di]", "[bp + si]", "[bp + di]", "[si]", "[di]", "[bp]", "[bx]"]

def register_table (operation_size : Size) : List String :=
  match operation_size with
  | .Byte => BYTE_REGISTERS
  | .Word => WORD_REGISTERS

/-- `fn r_m_format_displacement_inner`: render a base-register-pair
expression with a nonzero signed displacement; positive displacements with
` + `, non-positive ones negated (two's-complement `i16` negation) and
rendered with ` - `.  The wildcard match arm is `unreachable!()`. -/
def r_m_format_displacement_inner (second_byte : Nat) (displacement : Int) : RResult String :=
  let second_byte := second_byte &&& 0b111
  if displacement > 0 then
    match second_byte with
    | 0 => .ok ("[bx + si + " ++ toString displacement ++ "]")
    | 1 => .ok ("[bx + di + " ++ toString displacement ++ "]")
    | 2 => .ok ("[bp + si + " ++ toString displacement ++ "]")
    | 3 => .ok ("[bp + di + " ++ toString displacement ++ "]")
    | 4 => .ok ("[si + " ++ toString displacement ++ "]")
    | 5 => .ok ("[di + " ++ toString displacement ++ "]")
    | 6 => .ok ("[bp + " ++ toString displacement ++ "]")
    | 7 => .ok ("[bx + " ++ toString displacement ++ "]")
    | _ => .panicked
  else
    let displacement := i16_wrap_neg displacement
    match second_byte with
    | 0 => .ok ("[bx + si - " ++ toString displacement ++ "]")
    | 1 => .ok ("[bx + di - " ++ toString displacement ++ "]")
    | 2 => .ok ("[bp + si - " ++ toString displacement ++ "]")
    | 3 => .ok ("[bp + di - " ++ toString displacement ++ "]")
    | 4 => .ok ("[si - " ++ toString displacement ++ "]")
    | 5 => .ok ("[di - " ++ toString displacement ++ "]")
    | 6 => .ok ("[bp - " ++ toString displacement ++ "]")
    | 7 => .ok ("[bx - " ++ toString displacement ++ "]")
    | _ => .panicked

/-- `fn r_m_format_8_bit_displacement`: a zero displacement byte renders the
bare base-register-pair expression; otherwise the byte is sign-extended to
`i16` and rendered with its sign. -/
def r_m_format_8_bit_displacement (second_byte third_byte : Nat) : RResult String :=
  let second_byte := second_byte &&& 0b111
  if third_byte = 0 then
    liftOpt (MEMORY_STRINGS.get? second_byte)
  else
    r_m_format_displacement_inner second_byte (i8_as_i16 third_byte)

/-- `fn r_m_format_16_bit_displacement`: two little-endian bytes form a
signed 16-bit displacement; zero renders the bare expression. -/
def r_m_format_16_bit_displacement (second_byte third_byte fourth_byte : Nat) : RResult String :=
  let second_byte := second_byte &&& 0b111
  let displacement := i16_from_le third_byte fourth_byte
  if displacement = 0 then
    liftOpt (MEMORY_STRINGS.get? second_byte)
  else
    r_m_format_displacement_inner second_byte displacement

/-- `fn direct_address`: read two bytes little-endian as an unsigned 16-bit
address and render it bracketed. -/
def direct_address (s : List Nat) : RResult (String × List Nat) := do
  let (memory_lo, s) ← nextByte s
  let (memory_hi, s) ← nextByte s
  let displacement := u16_from_le memory_lo memory_hi
  pure ("[" ++ toString displacement ++ "]", s)

/-- `fn r_m_format_no_displacement`: r/m selector 6 is the direct-address
special case (consumes two bytes); every other selector renders its fixed
base-register-pair expression and consumes nothing. -/
def r_m_format_no_displacement (second_byte : Nat) (s : List Nat) : RResult (String × List Nat) := do
  let second_byte := second_byte &&& 0b111
  if second_byte = 6 then
    direct_address s
  else do
    let m ← liftOpt (MEMORY_STRINGS.get? second_byte)
    pure (m, s)

/-- `fn register_or_memory`: resolve the r/m operand per the addressing
mode, consuming exactly the displacement bytes the mode requires. -/
def register_or_memory (size : Size) (second_byte : Nat) (s : List Nat) :
    RResult (String × List Nat) := do
  let mode ← liftOpt (lookup_masked MODES second_byte 0b11000000 6)
  match mode with
  | Mode.MemoryNoDisplacement => r_m_format_no_displacement second_byte s
  | Mode.Memory8Bit => do
      let (third_byte, s) ← nextByte s
      let r ← r_m_format_8_bit_displacement second_byte third_byte
      pure (r, s)
  | Mode.Memory16Bit => do
      let (third_byte, s) ← nextByte s
      let (fourth_byte, s) ← nextByte s
      let r ← r_m_format_16_bit_displacement second_byte third_byte fourth_byte
      pure (r, s)
  | Mode.Register => do
      let r ← liftOpt (lookup_masked (register_table size) second_byte 0b00000111 0)
      pure (r, s)

/-- `fn disassemble_register_to_from_register`. -/
def disassemble_register_to_from_register (s : List Nat) : RResult (String × List Nat) := do
  let (first_byte, s) ← nextByte s
  let direction ← liftOpt (lookup_masked DIRECTIONS first_byte 0b00000010 1)
  let operation_size ← liftOpt (lookup_masked SIZES first_byte 0b00000001 0)
  let (second_byte, s) ← nextByte s
  let register ← liftOpt (lookup_masked (register_table operation_size) second_byte 0b00111000 3)
  let (rm, s) ← register_or_memory operation_size second_byte s
  match direction with
  | Direction.FromRegister => pure ("mov " ++ rm ++ ", " ++ register, s)
  | Direction.ToRegister => pure ("mov " ++ register ++ ", " ++ rm, s)

/-- `fn disassemble_immediate_to_register_memory`: note the format string
`mov {rm}, {size} {data}` always emits the `byte`/`word` qualifier. -/
def disassemble_immediate_to_register_memory (s : List Nat) : RResult (String × List Nat) := do
  let (first_byte, s) ← nextByte s
  let operation_size ← liftOpt (lookup_masked SIZES first_byte 0b1 0)
  let (second_byte, s) ← nextByte s
  let (rm, s) ← register_or_memory operation_size second_byte s
  let (d0, s) ← nextByte s
  let (d1, s) ←
    if operation_size = Size.Word then nextByte s
    else pure (0, s)
  let data := u16_from_le d0 d1
  pure ("mov " ++ rm ++ ", " ++ operation_size.as_immediate_str ++ " " ++ toString data, s)

/-- `fn disassemble_immediate_to_register`: the size bit sits at mask
`0b0000_1000`; one or two little-endian immediate bytes follow, rendered as
an unsigned decimal. -/
def disassemble_immediate_to_register (s : List Nat) : RResult (String × List Nat) := do
  let (first_byte, s) ← nextByte s
  let (d0, s) ← nextByte s
  let size ← liftOpt (lookup_masked SIZES first_byte 0b00001000 3)
  let (d1, s) ←
    if size = Size.Word then nextByte s
    else pure (0, s)
  let registers := if size = Size.Word then WORD_REGISTERS else BYTE_REGISTERS
  let register ← liftOpt (lookup_masked registers first_byte 0b00000111 0)
  let data := u16_from_le d0 d1
  pure ("mov " ++ register ++ ", " ++ toString data, s)

/-- Modelled from the spec: `disassemble_memory_to_from_accumulator` is
declared only by its unit tests in src/src/mov.rs; its implementation is
missing from src/.  Spec section 4.3, MemoryToFromAccumulator: a direction
bit selects whether the accumulator register is source or destination; two
address bytes follow, read little-endian as an unsigned 16-bit direct
memory address, rendered bracketed; the non-address operand is always the
word accumulator `ax`.  The direction bit sits at mask `0b10` as in the
sibling decoders, with the polarity fixed by the unit tests
(`0b1010_0001 ...` must give `mov ax, ...`, `0b1010_0011 ...` must give
`mov ..., ax`). -/
def disassemble_memory_to_from_accumulator (s : List Nat) : RResult (String × List Nat) := do
  let (first_byte, s) ← nextByte s
  let (lo, s) ← nextByte s
  let (hi, s) ← nextByte s
  let address := "[" ++ toString (u16_from_le lo hi) ++ "]"
  if (first_byte &&& 0b00000010) >>> 1 = 0 then
    pure ("mov ax, " ++ address, s)
  else
    pure ("mov " ++ address ++ ", ax", s)

end Mov

/-!
Spec-side definitions.  These follow the specification's words, for
comparison against the decoders above: the byte counts an encoding's mode
and size fields imply, and the base-register-pair expressions of the
effective-address table.
-/

/-- Follows the spec's words: the number of displacement or direct-address
bytes implied by the mode field (bits 7..6) and r/m field (bits 2..0) of
the addressing byte: none for register-direct; none in no-displacement
mode except the two direct-address bytes when r/m = 6; one in 8-bit mode;
two in 16-bit mode. -/
def spec_disp_len (second_byte : Nat) : Nat :=
  if (second_byte &&& 0b11000000) >>> 6 = 0 then
    (if second_byte &&& 0b111 = 6 then 2 else 0)
  else if (second_byte &&& 0b11000000) >>> 6 = 1 then 1
  else if (second_byte &&& 0b11000000) >>> 6 = 2 then 2
  else 0

/-- Follows the spec's words: immediate byte count implied by the size bit
(bit 0) of an immediate-to-register/memory opcode byte. -/
def spec_imm_len (first_byte : Nat) : Nat := 1 + (first_byte &&& 0b1)

/-- Follows the spec's words: immediate byte count implied by the size bit
(bit 3) of an immediate-to-register opcode byte. -/
def spec_imm_len_reg (first_byte : Nat) : Nat := 1 + ((first_byte &&& 0b1000) >>> 3)

/-- Follows the spec's words: the base-register-pair expression for each
r/m selector, without its closing bracket, ready to take a displacement
term. -/
def BASE_EXPRS : List String :=
  ["[bx + si", "[bx + di", "[bp + si", "[bp + di", "[si", "[di", "[bp", "[bx"]

/-!  Helper lemmas about bit-field extraction and table indexing. -/

theorem and_shift_le (b m s : Nat) : (b &&& m) >>> s ≤ m >>> s := by
  simp only [Nat.shiftRight_eq_div_pow]
  exact Nat.div_le_div_right Nat.and_le_right

theorem mode_bits_le (b : Nat) : (b &&& 0b11000000) >>> 6 ≤ 3 := by
  simpa using and_shift_le b 0b11000000 6

theorem rm_bits_le (b : Nat) : b &&& 0b111 ≤ 7 := Nat.and_le_right

theorem reg_bits_le (b : Nat) : (b &&& 0b00111000) >>> 3 ≤ 7 := by
  simpa using and_shift_le b 0b00111000 3

theorem dir_bits_le (b : Nat) : (b &&& 0b00000010) >>> 1 ≤ 1 := by
  simpa using and_shift_le b 0b00000010 1

theorem size_bits_le (b : Nat) : b &&& 0b1 ≤ 1 := Nat.and_le_right

theorem wide_size_bits_le (b : Nat) : (b &&& 0b00001000) >>> 3 ≤ 1 := by
  simpa using and_shift_le b 0b00001000 3

theorem mem_strings_get (n : Nat) (h : n ≤ 7) :
    ∃ s, Mov.MEMORY_STRINGS[n]? = some s := by
  interval_cases n <;> exact ⟨_, rfl⟩

theorem i16_wrap_neg_eq (d : Int) (h1 : -32768 < d) (h2 : d ≤ 0) : i16_wrap_neg d = -d := by
  unfold i16_wrap_neg
  omega

/-- Exact rendering of a nonzero in-range displacement other than `-32768`:
the base-register-pair expression of the r/m selector followed by the
signed displacement term. -/
theorem inner_eq (sb : Nat) (d : Int) (hlo : -32768 < d) (hhi : d < 32768) (hne : d ≠ 0) :
    Mov.r_m_format_displacement_inner sb d =
      .ok (BASE_EXPRS.getD (sb &&& 0b111) "" ++
           (if 0 < d then " + " ++ toString d else " - " ++ toString (-d)) ++ "]") := by
  have h7 := rm_bits_le sb
  obtain h | h | h | h | h | h | h | h :
      sb &&& 0b111 = 0 ∨ sb &&& 0b111 = 1 ∨ sb &&& 0b111 = 2 ∨ sb &&& 0b111 = 3 ∨
      sb &&& 0b111 = 4 ∨ sb &&& 0b111 = 5 ∨ sb &&& 0b111 = 6 ∨ sb &&& 0b111 = 7 := by
    omega
  all_goals rcases lt_trichotomy d 0 with hneg | hzero | hpos
  all_goals try exact absurd hzero hne
  all_goals try
    (have hw : i16_wrap_neg d = -d := i16_wrap_neg_eq d hlo (le_of_lt hneg)
     have hd : ¬ 0 < d := by omega
     simp [Mov.r_m_format_displacement_inner, h, hd, hw, BASE_EXPRS,
           ← String.append_assoc])
  all_goals simp [Mov.r_m_format_displacement_inner, h, hpos, BASE_EXPRS,
    ← String.append_assoc]

theorem inner_ok (sb : Nat) (d : Int) :
    ∃ str, Mov.r_m_format_displacement_inner sb d = RResult.ok str := by
  have h7 := rm_bits_le sb
  obtain h | h | h | h | h | h | h | h :
      sb &&& 0b111 = 0 ∨ sb &&& 0b111 = 1 ∨ sb &&& 0b111 = 2 ∨ sb &&& 0b111 = 3 ∨
      sb &&& 0b111 = 4 ∨ sb &&& 0b111 = 5 ∨ sb &&& 0b111 = 6 ∨ sb &&& 0b111 = 7 := by
    omega
  all_goals by_cases hd : d > 0 <;>
    simp [Mov.r_m_format_displacement_inner, h, hd]

theorem rm8_ok (sb t : Nat) :
    ∃ str, Mov.r_m_format_8_bit_displacement sb t = RResult.ok str := by
  by_cases ht : t = 0
  · obtain ⟨s, hs⟩ := mem_strings_get (sb &&& 0b111) (rm_bits_le sb)
    exact ⟨s, by simp [Mov.r_m_format_8_bit_displacement, ht, hs]⟩
  · obtain ⟨s, hs⟩ := inner_ok (sb &&& 0b111) (i8_as_i16 t)
    exact ⟨s, by simp [Mov.r_m_format_8_bit_displacement, ht, hs]⟩

theorem rm16_ok (sb t f : Nat) :
    ∃ str, Mov.r_m_format_16_bit_displacement sb t f = RResult.ok str := by
  by_cases hz : i16_from_le t f = 0
  · obtain ⟨s, hs⟩ := mem_strings_get (sb &&& 0b111) (rm_bits_le sb)
    exact ⟨s, by simp [Mov.r_m_format_16_bit_displacement, hz, hs]⟩
  · obtain ⟨s, hs⟩ := inner_ok (sb &&& 0b111) (i16_from_le t f)
    exact ⟨s, by simp [Mov.r_m_format_16_bit_displacement, hz, hs]⟩

theorem register_table_get (size : Mov.Size) (n : Nat) (h : n ≤ 7) :
    ∃ r, (Mov.register_table size)[n]? = some r := by
  cases size <;> interval_cases n <;> exact ⟨_, rfl⟩

/-- The effective-address resolver consumes exactly the displacement bytes
the mode/r-m fields imply, whenever that many bytes remain. -/
theorem register_or_memory_consumes (size : Mov.Size) (b2 : Nat) (rest : List Nat)
    (h : spec_disp_len b2 ≤ rest.length) :
    ∃ str, Mov.register_or_memory size b2 rest =
      RResult.ok (str, rest.drop (spec_disp_len b2)) := by
  have hm := mode_bits_le b2
  obtain hm0 | hm1 | hm2 | hm3 :
      (b2 &&& 0b11000000) >>> 6 = 0 ∨ (b2 &&& 0b11000000) >>> 6 = 1 ∨
      (b2 &&& 0b11000000) >>> 6 = 2 ∨ (b2 &&& 0b11000000) >>> 6 = 3 := by
    omega
  · by_cases h6 : b2 &&& 0b111 = 6
    · have hd : spec_disp_len b2 = 2 := by simp [spec_disp_len, hm0, h6]
      rw [hd] at h ⊢
      match rest, h with
      | lo :: hi :: rest2, _ =>
        simp [Mov.register_or_memory, Mov.lookup_masked, Mov.MODES, hm0,
          Mov.r_m_format_no_displacement, h6, Mov.direct_address]
    · have hd : spec_disp_len b2 = 0 := by simp [spec_disp_len, hm0, h6]
      rw [hd]
      obtain ⟨s, hs⟩ := mem_strings_get (b2 &&& 0b111) (rm_bits_le b2)
      simp [Mov.register_or_memory, Mov.lookup_masked, Mov.MODES, hm0,
        Mov.r_m_format_no_displacement, h6, hs]
  · have hd : spec_disp_len b2 = 1 := by simp [spec_disp_len, hm1]
    rw [hd] at h ⊢
    match rest, h with
    | t :: rest2, _ =>
      obtain ⟨s, hs⟩ := rm8_ok b2 t
      simp [Mov.register_or_memory, Mov.lookup_masked, Mov.MODES, hm1, hs]
  · have hd : spec_disp_len b2 = 2 := by simp [spec_disp_len, hm2]
    rw [hd] at h ⊢
    match rest, h with
    | t :: f :: rest2, _ =>
      obtain ⟨s, hs⟩ := rm16_ok b2 t f
      simp [Mov.register_or_memory, Mov.lookup_masked, Mov.MODES, hm2, hs]
  · have hd : spec_disp_len b2 = 0 := by simp [spec_disp_len, hm3]
    rw [hd]
    obtain ⟨r, hr⟩ := register_table_get size (b2 &&& 0b111) (rm_bits_le b2)
    simp [Mov.register_or_memory, Mov.lookup_masked, Mov.MODES, hm3, hr]

theorem byte_registers_get (n : Nat) (h : n ≤ 7) :
    ∃ r, Mov.BYTE_REGISTERS[n]? = some r := by
  interval_cases n <;> exact ⟨_, rfl⟩

theorem word_registers_get (n : Nat) (h : n ≤ 7) :
    ∃ r, Mov.WORD_REGISTERS[n]? = some r := by
  interval_cases n <;> exact ⟨_, rfl⟩

/-- The register-to/from-register/memory decoder consumes its two fixed
bytes plus exactly the implied displacement bytes. -/
theorem reg_to_from_reg_consumes (b1 b2 : Nat) (rest : List Nat)
    (h : spec_disp_len b2 ≤ rest.length) :
    ∃ line, Mov.disassemble_register_to_from_register (b1 :: b2 :: rest) =
      RResult.ok (line, rest.drop (spec_disp_len b2)) := by
  obtain ⟨rB, hrB⟩ :=
    register_table_get Mov.Size.Byte ((b2 &&& 0b00111000) >>> 3) (reg_bits_le b2)
  obtain ⟨rW, hrW⟩ :=
    register_table_get Mov.Size.Word ((b2 &&& 0b00111000) >>> 3) (reg_bits_le b2)
  obtain ⟨mB, hmB⟩ := register_or_memory_consumes Mov.Size.Byte b2 rest h
  obtain ⟨mW, hmW⟩ := register_or_memory_consumes Mov.Size.Word b2 rest h
  have hdir := dir_bits_le b1
  have hsz := size_bits_le b1
  obtain hd | hd : (b1 &&& 0b00000010) >>> 1 = 0 ∨ (b1 &&& 0b00000010) >>> 1 = 1 := by omega
  all_goals obtain hz | hz := Nat.mod_two_eq_zero_or_one b1
  all_goals simp [Mov.disassemble_register_to_from_register, Mov.lookup_masked,
    Mov.DIRECTIONS, Mov.SIZES, hd, hz, hrB, hrW, hmB, hmW]

/-- The immediate-to-register/memory decoder: exact output shape (the
`byte`/`word` qualifier is always present) and exact byte consumption. -/
theorem imm_to_reg_mem_shape (b1 b2 : Nat) (rest : List Nat)
    (h : spec_disp_len b2 + spec_imm_len b1 ≤ rest.length) :
    ∃ (rm : String) (data : Nat), Mov.disassemble_immediate_to_register_memory (b1 :: b2 :: rest) =
      RResult.ok ("mov " ++ rm ++ ", " ++ (if b1 &&& 0b1 = 1 then "word" else "byte") ++
          " " ++ toString data,
        rest.drop (spec_disp_len b2 + spec_imm_len b1)) := by
  have hsz := size_bits_le b1
  have himm1 : 1 ≤ spec_imm_len b1 := by simp [spec_imm_len]
  have hdisp : spec_disp_len b2 ≤ rest.length := by omega
  have hlen : (rest.drop (spec_disp_len b2)).length = rest.length - spec_disp_len b2 := by
    simp
  obtain ⟨d0, l3, hl⟩ : ∃ a t, rest.drop (spec_disp_len b2) = a :: t := by
    cases hc : rest.drop (spec_disp_len b2) with
    | nil => rw [hc] at hlen; simp at hlen; omega
    | cons a t => exact ⟨a, t, rfl⟩
  have hsplit : rest.drop (spec_disp_len b2 + spec_imm_len b1) =
      (rest.drop (spec_disp_len b2)).drop (spec_imm_len b1) := by
    rw [List.drop_drop, Nat.add_comm]
  obtain hz | hz := Nat.mod_two_eq_zero_or_one b1
  · obtain ⟨mB, hmB⟩ := register_or_memory_consumes Mov.Size.Byte b2 rest hdisp
    have he : spec_imm_len b1 = 1 := by simp [spec_imm_len, hz]
    rw [hsplit, he, hl]
    simp [Mov.disassemble_immediate_to_register_memory, Mov.lookup_masked,
      Mov.SIZES, hz, hmB, hl, Mov.Size.as_immediate_str]
    exact ⟨mB, u16_from_le d0 0, rfl⟩
  · obtain ⟨mW, hmW⟩ := register_or_memory_consumes Mov.Size.Word b2 rest hdisp
    have he : spec_imm_len b1 = 2 := by simp [spec_imm_len, hz]
    obtain ⟨d1, l4, hl4⟩ : ∃ a t, l3 = a :: t := by
      cases hc : l3 with
      | nil => rw [hc] at hl; rw [hl] at hlen; simp at hlen; omega
      | cons a t => exact ⟨a, t, rfl⟩
    rw [hsplit, he, hl, hl4]
    simp [Mov.disassemble_immediate_to_register_memory, Mov.lookup_masked,
      Mov.SIZES, hz, hmW, hl, hl4, Mov.Size.as_immediate_str]
    exact ⟨mW, u16_from_le d0 d1, rfl⟩

/-- The immediate-to-register decoder consumes its opcode byte plus exactly
the implied immediate bytes. -/
theorem imm_to_reg_consumes (b1 : Nat) (rest : List Nat)
    (h : spec_imm_len_reg b1 ≤ rest.length) :
    ∃ line, Mov.disassemble_immediate_to_register (b1 :: rest) =
      RResult.ok (line, rest.drop (spec_imm_len_reg b1)) := by
  have hsz := wide_size_bits_le b1
  obtain ⟨rB, hrB⟩ := byte_registers_get (b1 &&& 0b00000111) (rm_bits_le b1)
  obtain ⟨rW, hrW⟩ := word_registers_get (b1 &&& 0b00000111) (rm_bits_le b1)
  obtain hz | hz : (b1 &&& 0b00001000) >>> 3 = 0 ∨ (b1 &&& 0b00001000) >>> 3 = 1 := by
    omega
  · have he : spec_imm_len_reg b1 = 1 := by simp [spec_imm_len_reg, hz]
    rw [he] at h ⊢
    match rest, h with
    | d0 :: rest2, _ =>
      simp [Mov.disassemble_immediate_to_register, Mov.lookup_masked, Mov.SIZES,
        hz, hrB, hrW]
  · have he : spec_imm_len_reg b1 = 2 := by simp [spec_imm_len_reg, hz]
    rw [he] at h ⊢
    match rest, h with
    | d0 :: d1 :: rest2, _ =>
      simp [Mov.disassemble_immediate_to_register, Mov.lookup_masked, Mov.SIZES,
        hz, hrB, hrW]

/-- The (spec-modelled) memory-to/from-accumulator decoder consumes exactly
its opcode byte and two address bytes. -/
theorem acc_consumes (b1 lo hi : Nat) (rest : List Nat) :
    ∃ line, Mov.disassemble_memory_to_from_accumulator (b1 :: lo :: hi :: rest) =
      RResult.ok (line, rest) := by
  by_cases hd : (b1 &&& 0b00000010) >>> 1 = 0 <;>
    simp [Mov.disassemble_memory_to_from_accumulator, hd]

/-!  Claim theorems. -/

/-- Claim C1, counterexample: the top-level `decode_mov` path in main.rs is
also a decode call on a valid MOV encoding, yet on the 8-bit-displacement
encoding `1000_1010 0110_0000 0000_0100` it consumes only the two fixed
bytes: the implied displacement byte count of the addressing byte
`0110_0000` is 1, but the displacement byte `0000_0100` is left unconsumed
in the stream. -/
theorem C1_counterexample :
    Main.dissassemble_instruction [0b10001010, 0b01100000, 0b00000100] =
      RResult.ok ("mov ah, al", [0b00000100]) ∧
    spec_disp_len 0b01100000 = 1 := by
  constructor <;> rfl

/-- Claim C1 (amended to the four variant decoders of mov.rs, the
memory-to/from-accumulator one modelled from the spec): for every valid
encoding of each variant, one decode call consumes exactly the byte count
implied by that encoding's mode and size fields — the fixed opcode and
addressing bytes plus the implied displacement, address and immediate
bytes, no more and no fewer. -/
theorem C1_variant_decoders_consume_exact :
    (∀ b1 b2 rest, b1 &&& 0b11111100 = 0b10001000 → spec_disp_len b2 ≤ rest.length →
      ∃ line, Mov.disassemble_register_to_from_register (b1 :: b2 :: rest) =
        RResult.ok (line, rest.drop (spec_disp_len b2))) ∧
    (∀ b1 b2 rest, b1 &&& 0b11111110 = 0b11000110 →
      spec_disp_len b2 + spec_imm_len b1 ≤ rest.length →
      ∃ line, Mov.disassemble_immediate_to_register_memory (b1 :: b2 :: rest) =
        RResult.ok (line, rest.drop (spec_disp_len b2 + spec_imm_len b1))) ∧
    (∀ b1 rest, b1 &&& 0b11110000 = 0b10110000 → spec_imm_len_reg b1 ≤ rest.length →
      ∃ line, Mov.disassemble_immediate_to_register (b1 :: rest) =
        RResult.ok (line, rest.drop (spec_imm_len_reg b1))) ∧
    (∀ b1 lo hi rest, b1 &&& 0b11111100 = 0b10100000 →
      ∃ line, Mov.disassemble_memory_to_from_accumulator (b1 :: lo :: hi :: rest) =
        RResult.ok (line, rest)) := by
  refine ⟨?_, ?_, ?_, ?_⟩
  · exact fun b1 b2 rest _ h => reg_to_from_reg_consumes b1 b2 rest h
  · intro b1 b2 rest _ h
    obtain ⟨rm, data, hd⟩ := imm_to_reg_mem_shape b1 b2 rest h
    exact ⟨_, hd⟩
  · exact fun b1 rest _ h => imm_to_reg_consumes b1 rest h
  · exact fun b1 lo hi rest _ => acc_consumes b1 lo hi rest

/-- Claim C1, witness: one concrete valid encoding per variant, each
consuming exactly its implied byte count. -/
theorem C1_witness :
    (∃ line, Mov.disassemble_register_to_from_register [138, 96, 4] =
      RResult.ok (line, List.drop (spec_disp_len 96) [4])) ∧
    (∃ line, Mov.disassemble_immediate_to_register_memory [198, 3, 7] =
      RResult.ok (line, List.drop (spec_disp_len 3 + spec_imm_len 198) [7])) ∧
    (∃ line, Mov.disassemble_immediate_to_register [177, 12] =
      RResult.ok (line, List.drop (spec_imm_len_reg 177) [12])) ∧
    (∃ line, Mov.disassemble_memory_to_from_accumulator [161, 251, 9] =
      RResult.ok (line, [])) :=
  ⟨C1_variant_decoders_consume_exact.1 138 96 [4] (by decide) (by decide),
   C1_variant_decoders_consume_exact.2.1 198 3 [7] (by decide) (by decide),
   C1_variant_decoders_consume_exact.2.2.1 177 [12] (by decide) (by decide),
   C1_variant_decoders_consume_exact.2.2.2 161 251 9 [] (by decide)⟩

/-- Claim C2, counterexample: on the leading byte `0000_0000`, which
matches no variant's bit pattern, `decode_operation` hits
`unimplemented!()` and the whole run aborts (`.panicked`); no typed
`UnsupportedOpcode` error value exists anywhere in the code. -/
theorem C2_counterexample :
    Main.decode_operation [0] = RResult.panicked ∧
    Main.disassemble [0] = RResult.panicked := by
  constructor <;> rfl

/-- Claim C2 (amended): for every input whose leading byte fails the MOV
opcode mask, the dispatcher panics via `unimplemented!()`, terminating the
whole run; no typed error carrying the byte and offset is produced. -/
theorem C2_unmatched_opcode_panics (b : Nat) (rest : List Nat)
    (h : ¬ b &&& 0b11111100 = 0b10001000) :
    Main.decode_operation (b :: rest) = RResult.panicked ∧
    Main.disassemble (b :: rest) = RResult.panicked := by
  have h1 : Main.decode_operation (b :: rest) = RResult.panicked := by
    simp [Main.decode_operation, Main.OPCODE_MASK, h]
  refine ⟨h1, ?_⟩
  simp [Main.disassemble, Main.disassembleAux, Main.dissassemble_instruction, h1]

/-- Claim C2, witness. -/
theorem C2_witness :
    Main.decode_operation [1] = RResult.panicked ∧
    Main.disassemble [1] = RResult.panicked :=
  C2_unmatched_opcode_panics 1 [] (by decide)

theorem disassembleAux_step_ok (fuel : Nat) (s s2 : List Nat) (line acc : String)
    (h : Main.dissassemble_instruction s = RResult.ok (line, s2)) :
    Main.disassembleAux (fuel + 1) s acc =
      Main.disassembleAux fuel s2 (acc ++ line ++ "\n") := by
  simp [Main.disassembleAux, h]

theorem disassembleAux_step_exhausted (fuel : Nat) (s : List Nat) (acc : String)
    (h : Main.dissassemble_instruction s = RResult.exhausted) :
    Main.disassembleAux (fuel + 1) s acc = RResult.ok acc := by
  simp [Main.disassembleAux, h]

/-- Claim C3, counterexample: the input `1000_1000`, which ends
mid-instruction (the opcode byte promises an addressing byte that never
comes), makes the stream driver terminate as an ordinary success carrying
only the header — the very same result as the empty input.  No typed
`StreamExhausted` failure or incompleteness flag reaches the caller, so a
truncated input cannot be distinguished from a cleanly exhausted one. -/
theorem C3_counterexample :
    Main.disassemble [0b10001000] = RResult.ok "bits 16\n\n" ∧
    Main.disassemble [] = RResult.ok "bits 16\n\n" := by
  constructor <;> rfl

/-- Claim C3 (amended): when the input ends mid-instruction the driver
stops and returns the lines already decoded as an ordinary success value,
with no error or incompleteness marker; an empty stream also terminates
successfully; consequently a truncated input is indistinguishable from a
cleanly exhausted one (mov-opcode byte `b` appended after a complete
instruction changes nothing). -/
theorem C3_truncation_indistinguishable (b : Nat)
    (h : b &&& 0b11111100 = 0b10001000) :
    Main.disassemble [0b10001001, 0b11011001, b] =
      RResult.ok "bits 16\n\nmov cx, bx\n" ∧
    Main.disassemble [0b10001001, 0b11011001] =
      RResult.ok "bits 16\n\nmov cx, bx\n" := by
  have hstep : Main.dissassemble_instruction (0b10001001 :: 0b11011001 :: [b]) =
      RResult.ok ("mov cx, bx", [b]) := rfl
  have hstep2 : Main.dissassemble_instruction [b] = RResult.exhausted := by
    simp [Main.dissassemble_instruction, Main.decode_operation, Main.OPCODE_MASK, h,
      Main.decode_mov]
  constructor
  · show Main.disassembleAux (2 + 1 + 1) (0b10001001 :: 0b11011001 :: [b])
      (Main.HEADER ++ "\n\n") = RResult.ok "bits 16\n\nmov cx, bx\n"
    rw [disassembleAux_step_ok (2 + 1) _ _ _ _ hstep,
      disassembleAux_step_exhausted (2 + 1 - 1) _ _ hstep2]
    rfl
  · rfl

/-- Claim C3, witness. -/
theorem C3_witness :
    Main.disassemble [0b10001001, 0b11011001, 0b10001000] =
      RResult.ok "bits 16\n\nmov cx, bx\n" ∧
    Main.disassemble [0b10001001, 0b11011001] =
      RResult.ok "bits 16\n\nmov cx, bx\n" :=
  C3_truncation_indistinguishable 0b10001000 (by decide)

/-- Claim C4: the three-byte 8-bit-displacement listing
`1000_1010 0110_0000 0000_0100` decodes to exactly one line
`mov ah, [bx + si + 4]` with all three bytes consumed — but only through
the variant decoder `disassemble_register_to_from_register` in mov.rs
(whose own unit test asserts this output).  The top-level decode loop in
main.rs never consumes displacement bytes: it emits `mov ah, al` from the
first two bytes and then panics on the leftover displacement byte, so the
claim's expected behaviour does not hold through `disassemble`. -/
theorem C4_three_byte_listing :
    Mov.disassemble_register_to_from_register [0b10001010, 0b01100000, 0b00000100] =
      RResult.ok ("mov ah, [bx + si + 4]", []) ∧
    Main.disassemble [0b10001010, 0b01100000, 0b00000100] = RResult.panicked := by
  constructor <;> rfl

/-- Claim C5: the memory-to-accumulator encoding
`1010_0001 1111_1011 0000_1001` — two address bytes read little-endian as
the unsigned 16-bit direct address 2555, with the word accumulator as the
non-address operand — decodes to `mov ax, [2555]`, all three bytes
consumed (decoder modelled from the spec; its implementation is absent
from src/). -/
theorem C5_memory_to_accumulator :
    Mov.disassemble_memory_to_from_accumulator [0b10100001, 0b11111011, 0b00001001] =
      RResult.ok ("mov ax, [2555]", []) := by
  rfl

/-- Claim C6, counterexample: with addressing byte `1100_0000` the mode is
register-direct and the destination is the register `al`, yet the decoder
still emits the `byte` size qualifier: the output is `mov al, byte 7`, not
the qualifier-free `mov al, 7` the claim requires for register
destinations. -/
theorem C6_counterexample :
    Mov.disassemble_immediate_to_register_memory [0b11000110, 0b11000000, 0b00000111] =
      RResult.ok ("mov al, byte 7", []) ∧
    "mov al, byte 7" ≠ "mov al, 7" := by
  constructor
  · rfl
  · decide

/-- Claim C6 (amended): for every immediate-to-register/memory encoding the
output carries the explicit `byte`/`word` qualifier before the immediate
literal — for memory destinations and register-direct destinations alike;
the qualifier is never omitted. -/
theorem C6_qualifier_always_present (b1 b2 : Nat) (rest : List Nat)
    (h : spec_disp_len b2 + spec_imm_len b1 ≤ rest.length) :
    ∃ (rm : String) (data : Nat),
      Mov.disassemble_immediate_to_register_memory (b1 :: b2 :: rest) =
        RResult.ok ("mov " ++ rm ++ ", " ++ (if b1 &&& 0b1 = 1 then "word" else "byte") ++
            " " ++ toString data,
          rest.drop (spec_disp_len b2 + spec_imm_len b1)) :=
  imm_to_reg_mem_shape b1 b2 rest h

/-- Claim C6, witness: a register-direct destination, qualifier present. -/
theorem C6_witness :
    ∃ (rm : String) (data : Nat),
      Mov.disassemble_immediate_to_register_memory [198, 192, 7] =
        RResult.ok ("mov " ++ rm ++ ", " ++ (if 198 &&& 0b1 = 1 then "word" else "byte") ++
            " " ++ toString data,
          List.drop (spec_disp_len 192 + spec_imm_len 198) [7]) :=
  C6_qualifier_always_present 198 192 [7] (by decide)

/-- Claim C7, counterexample: at the 16-bit displacement `-32768` (bytes
`0x00 0x80`) the positive magnitude 32768 is not representable in `i16`:
the code's negation wraps (an overflow-checked build panics) and the
rendered text is `[bx + si - -32768]`, not a `-` sign followed by the
positive magnitude. -/
theorem C7_counterexample :
    Mov.r_m_format_displacement_inner 0 (-32768) =
      RResult.ok "[bx + si - -32768]" ∧
    Mov.r_m_format_16_bit_displacement 0 0 128 =
      RResult.ok "[bx + si - -32768]" ∧
    "[bx + si - -32768]" ≠ "[bx + si - 32768]" := by
  refine ⟨rfl, rfl, by decide⟩

/-- Claim C7 (amended): for every nonzero signed 16-bit displacement other
than `-32768`, the rendered expression is the selector's
base-register-pair prefix followed by ` + ` and the value when positive,
or ` - ` and the positive magnitude when negative. -/
theorem C7_displacement_sign_rendering (sb : Nat) (d : Int)
    (hlo : -32768 < d) (hhi : d < 32768) (hne : d ≠ 0) :
    Mov.r_m_format_displacement_inner sb d =
      RResult.ok (BASE_EXPRS.getD (sb &&& 0b111) "" ++
        (if 0 < d then " + " ++ toString d else " - " ++ toString (-d)) ++ "]") :=
  inner_eq sb d hlo hhi hne

/-- Claim C7, witness: a negative and a positive displacement. -/
theorem C7_witness :
    Mov.r_m_format_displacement_inner 1 (-37) =
      RResult.ok (BASE_EXPRS.getD (1 &&& 0b111) "" ++
        (if 0 < (-37 : Int) then " + " ++ toString (-37 : Int)
         else " - " ++ toString (-(-37) : Int)) ++ "]") :=
  C7_displacement_sign_rendering 1 (-37) (by decide) (by decide) (by decide)

/-- Claim C8: in 8-bit- and 16-bit-displacement modes a zero-valued
displacement is entirely absent from the rendered expression — the output
is the bare base-register-pair expression — while the one or two
displacement bytes are still consumed from the stream. -/
theorem C8_zero_displacement_suppressed (size : Mov.Size) (sb : Nat) (rest : List Nat) :
    ((sb &&& 0b11000000) >>> 6 = 1 →
      Mov.register_or_memory size sb (0 :: rest) =
        RResult.ok (Mov.MEMORY_STRINGS.getD (sb &&& 0b111) "", rest)) ∧
    ((sb &&& 0b11000000) >>> 6 = 2 →
      Mov.register_or_memory size sb (0 :: 0 :: rest) =
        RResult.ok (Mov.MEMORY_STRINGS.getD (sb &&& 0b111) "", rest)) := by
  have h7 := rm_bits_le sb
  obtain h | h | h | h | h | h | h | h :
      sb &&& 0b111 = 0 ∨ sb &&& 0b111 = 1 ∨ sb &&& 0b111 = 2 ∨ sb &&& 0b111 = 3 ∨
      sb &&& 0b111 = 4 ∨ sb &&& 0b111 = 5 ∨ sb &&& 0b111 = 6 ∨ sb &&& 0b111 = 7 := by
    omega
  all_goals constructor
  all_goals intro hm
  all_goals simp [Mov.register_or_memory, Mov.lookup_masked, Mov.MODES, hm, h,
    Mov.r_m_format_8_bit_displacement, Mov.r_m_format_16_bit_displacement,
    i16_from_le, Mov.MEMORY_STRINGS]

/-- Claim C8, witness: an 8-bit and a 16-bit zero displacement over
selector 1 (`[bx + di]`), displacement bytes consumed. -/
theorem C8_witness :
    Mov.register_or_memory Mov.Size.Byte 65 (0 :: [9]) =
      RResult.ok (Mov.MEMORY_STRINGS.getD (65 &&& 0b111) "", [9]) ∧
    Mov.register_or_memory Mov.Size.Byte 129 (0 :: 0 :: [9]) =
      RResult.ok (Mov.MEMORY_STRINGS.getD (129 &&& 0b111) "", [9]) :=
  ⟨(C8_zero_displacement_suppressed Mov.Size.Byte 65 [9]).1 (by decide),
   (C8_zero_displacement_suppressed Mov.Size.Byte 129 [9]).2 (by decide)⟩

/-- Claim C9: in no-displacement mode, selector 6 — and only selector 6 —
reads the next two bytes little-endian as an unsigned 16-bit direct
address, renders it bracketed and consumes those two bytes; every other
selector renders its fixed base-register-pair expression, with no
displacement term and no extra bytes consumed. -/
theorem C9_no_displacement_direct_address (sb lo hi : Nat) (rest rest2 : List Nat) :
    (sb &&& 0b111 = 6 → lo < 256 → hi < 256 →
      Mov.r_m_format_no_displacement sb (lo :: hi :: rest) =
        RResult.ok ("[" ++ toString (u16_from_le lo hi) ++ "]", rest)) ∧
    (¬ sb &&& 0b111 = 6 →
      Mov.r_m_format_no_displacement sb rest2 =
        RResult.ok (Mov.MEMORY_STRINGS.getD (sb &&& 0b111) "", rest2)) := by
  constructor
  · intro h6 _ _
    simp [Mov.r_m_format_no_displacement, h6, Mov.direct_address]
  · intro h6
    have h7 := rm_bits_le sb
    obtain h | h | h | h | h | h | h :
        sb &&& 0b111 = 0 ∨ sb &&& 0b111 = 1 ∨ sb &&& 0b111 = 2 ∨ sb &&& 0b111 = 3 ∨
        sb &&& 0b111 = 4 ∨ sb &&& 0b111 = 5 ∨ sb &&& 0b111 = 7 := by
      omega
    all_goals simp [Mov.r_m_format_no_displacement, h, Mov.MEMORY_STRINGS]

/-- Claim C9, witness: selector 6 reads the direct address 2555; selector
0 renders `[bx + si]` and consumes nothing. -/
theorem C9_witness :
    Mov.r_m_format_no_displacement 6 [251, 9, 77] =
      RResult.ok ("[" ++ toString (u16_from_le 251 9) ++ "]", [77]) ∧
    Mov.r_m_format_no_displacement 0 [77] =
      RResult.ok (Mov.MEMORY_STRINGS.getD (0 &&& 0b111) "", [77]) :=
  ⟨(C9_no_displacement_direct_address 6 251 9 [77] []).1 rfl (by decide) (by decide),
   (C9_no_displacement_direct_address 0 0 0 [] [77]).2 (by decide)⟩

theorem lookup_masked_isSomeMain {α : Type} (l : List α) (b m s2 : Nat)
    (h : m >>> s2 < l.length) : (Main.lookup_masked l b m s2).isSome := by
  unfold Main.lookup_masked
  have hlt : (b &&& m) >>> s2 < l.length := by
    have := and_shift_le b m s2
    omega
  rw [List.get?_eq_getElem?, List.getElem?_eq_getElem hlt]
  rfl

theorem lookup_masked_isSomeMov {α : Type} (l : List α) (b m s2 : Nat)
    (h : m >>> s2 < l.length) : (Mov.lookup_masked l b m s2).isSome := by
  unfold Mov.lookup_masked
  have hlt : (b &&& m) >>> s2 < l.length := by
    have := and_shift_le b m s2
    omega
  rw [List.get?_eq_getElem?, List.getElem?_eq_getElem hlt]
  rfl

/-- Claim C10: for every input byte, every masked table lookup the decoders
perform — direction, size (both positions), mode, register selector
(mask 0b0011_1000, shift 3), r/m selector (mask 0b0000_0111, shift 0), and
the base-register-pair table index — stays within its table's bounds, so
the out-of-range (panicking) branch of the lookup is unreachable. -/
theorem C10_lookups_in_bounds (b : Nat) :
    (Main.lookup_masked Main.DIRECTIONS b 0b00000010 1).isSome ∧
    (Main.lookup_masked Main.SIZES b 0b00000001 0).isSome ∧
    (Main.lookup_masked Main.MODES b 0b11000000 6).isSome ∧
    (Main.lookup_masked Main.BYTE_REGISTERS b 0b00111000 3).isSome ∧
    (Main.lookup_masked Main.WORD_REGISTERS b 0b00111000 3).isSome ∧
    (Main.lookup_masked Main.BYTE_REGISTERS b 0b00000111 0).isSome ∧
    (Main.lookup_masked Main.WORD_REGISTERS b 0b00000111 0).isSome ∧
    (Mov.lookup_masked Mov.DIRECTIONS b 0b00000010 1).isSome ∧
    (Mov.lookup_masked Mov.SIZES b 0b00000001 0).isSome ∧
    (Mov.lookup_masked Mov.SIZES b 0b00001000 3).isSome ∧
    (Mov.lookup_masked Mov.MODES b 0b11000000 6).isSome ∧
    (Mov.lookup_masked Mov.BYTE_REGISTERS b 0b00111000 3).isSome ∧
    (Mov.lookup_masked Mov.WORD_REGISTERS b 0b00111000 3).isSome ∧
    (Mov.lookup_masked Mov.BYTE_REGISTERS b 0b00000111 0).isSome ∧
    (Mov.lookup_masked Mov.WORD_REGISTERS b 0b00000111 0).isSome ∧
    (Mov.MEMORY_STRINGS[b &&& 0b111]?).isSome := by
  refine ⟨lookup_masked_isSomeMain _ b _ _ (by decide),
    lookup_masked_isSomeMain _ b _ _ (by decide),
    lookup_masked_isSomeMain _ b _ _ (by decide),
    lookup_masked_isSomeMain _ b _ _ (by decide),
    lookup_masked_isSomeMain _ b _ _ (by decide),
    lookup_masked_isSomeMain _ b _ _ (by decide),
    lookup_masked_isSomeMain _ b _ _ (by decide),
    lookup_masked_isSomeMov _ b _ _ (by decide),
    lookup_masked_isSomeMov _ b _ _ (by decide),
    lookup_masked_isSomeMov _ b _ _ (by decide),
    lookup_masked_isSomeMov _ b _ _ (by decide),
    lookup_masked_isSomeMov _ b _ _ (by decide),
    lookup_masked_isSomeMov _ b _ _ (by decide),
    lookup_masked_isSomeMov _ b _ _ (by decide),
    lookup_masked_isSomeMov _ b _ _ (by decide), ?_⟩
  have hlt : b &&& 0b111 < Mov.MEMORY_STRINGS.length := by
    have := rm_bits_le b
    simp [Mov.MEMORY_STRINGS]
    omega
  rw [List.getElem?_eq_getElem hlt]
  rfl
